import Mathlib

/-!
Verification of the homehud voice-assistant core against its source.

The Python source under src/ is shallowly embedded: mutable objects
become explicit state records, wall-clock reads become explicit time
parameters, and external I/O (the Anthropic API, audio devices, the
file system) becomes oracle inputs supplied to the embedded functions.
-/

/-! ## LLM port (src/llm/base.py, src/llm/claude_llm.py) -/

/-- One conversation-history entry: (user, assistant, timestamp), as stored
in BaseLLM._history (base.py line 24).  Timestamps are time.monotonic
readings, embedded as naturals. -/
structure HistEntry where
  user : String
  assistant : String
  ts : Nat
deriving Repr, DecidableEq

/-- The state of a BaseLLM instance: the config-derived limits
llm_max_history and llm_history_ttl plus the history list (base.py 20-24). -/
structure LLMState where
  maxHistory : Nat
  historyTtl : Int
  history : List HistEntry
deriving Repr, DecidableEq

/-- BaseLLM._expire_history (base.py 26-31): a no-op when the TTL is ≤ 0,
otherwise keep exactly the entries with timestamp strictly newer than
now - ttl. -/
def expire_history (st : LLMState) (now : Nat) : LLMState :=
  if st.historyTtl ≤ 0 then st
  else { st with
    history := st.history.filter (fun e => (e.ts : Int) > (now : Int) - st.historyTtl) }

/-- BaseLLM._record_exchange (base.py 43-47): append the pair with the
current monotonic time, then trim to the last max_history entries.
Python's history[-max:] keeps the whole list when max = 0, so the
max = 0 edge is kept explicit. -/
def record_exchange_priv (st : LLMState) (user assistant : String) (now : Nat) : LLMState :=
  let h := st.history ++ [⟨user, assistant, now⟩]
  if st.maxHistory < h.length then
    if st.maxHistory = 0 then { st with history := h }
    else { st with history := h.drop (h.length - st.maxHistory) }
  else { st with history := h }

/-- Modelled from the spec: BaseLLM.record_exchange, the public API "for the
router to commit a user/assistant pair to history after a successful route"
(spec §4.5).  The method's definition is absent from src/ — only its
callers (router.py 103, 109, 116, 121, 159, 172) and its tests
(tests/test_parse_intent.py 29-48) appear there.  Per spec §8 ("After
successful respond or record_exchange, history length increases by 1
bounded by llm_max_history") it appends the pair and trims to
llm_max_history, exactly the behaviour of BaseLLM._record_exchange. -/
def record_exchange (st : LLMState) (user assistant : String) (now : Nat) : LLMState :=
  record_exchange_priv st user assistant now

/-- The three structured intent kinds of the route_intent tool
(claude_llm.py 93-95), plus a constructor for any other string the
router would reject at router.py 124. -/
inductive IntentKind
  | action
  | conversation
  | clarification
  | other
deriving Repr, DecidableEq

/-- The dict produced by the route_intent tool call (claude_llm.py 84-111),
with the router's dict.get defaults embedded: absent string keys read
as "", and expects_follow_up stays optional because the router reads it
with branch-specific defaults (router.py 101, 115, 120). -/
structure ParsedIntent where
  type : IntentKind
  feature : String
  action : String
  params : List (String × String)
  speech : String
  expectsFollowUp : Option Bool
deriving Repr, DecidableEq

/-- ClaudeLLM.parse_intent (claude_llm.py 135-215): result and state effect.
The Anthropic call is an oracle input: .error e is a raised API
exception (caught at line 201), .ok none a reply with no route_intent
tool_use block (line 200), .ok (some pi) a structured parse.
_get_messages (base.py 33-41) runs _expire_history before the API call
on every path, and no path appends to history. -/
def parse_intent (st : LLMState) (now : Nat)
    (api : Except String (Option ParsedIntent)) : Option ParsedIntent × LLMState :=
  let st1 := expire_history st now
  match api with
  | .error _ => (none, st1)
  | .ok none => (none, st1)
  | .ok (some pi) => (some pi, st1)

/-- ClaudeLLM.respond (claude_llm.py 217-257): _get_messages expires the
history, then on API success the response is recorded via
_record_exchange (line 241); a raised API error returns the fixed
apology without recording (line 257). -/
def respond_llm (st : LLMState) (text : String) (now : Nat)
    (api : Except String String) : String × LLMState :=
  let st1 := expire_history st now
  match api with
  | .ok resp => (resp, record_exchange_priv st1 text resp now)
  | .error _ => ("Sorry, I wasn't able to process that. Please try again.", st1)

/-! ## Outer-loop error handling (src/voice_pipeline.py, loop(), 245-307) -/

/-- The backoff the loop sleeps before a retry: min(2 ** n, 30) seconds
(voice_pipeline.py 300). -/
def loop_backoff (n : Nat) : Nat := min (2 ^ n) 30

/-- The outer while-loop of loop() (voice_pipeline.py 250-305), reduced to
its error accounting.  Each iteration is a pair (gotChunk, raised):
gotChunk says whether audio.stream yielded at least one chunk (which
resets consecutive_errors, line 254), raised whether the body then
raised.  The second argument is the running consecutive_errors counter
(initially 0, line 247); max_errors is 3 (line 248).  Returns the list
of backoff sleeps performed (line 305) and whether the loop exited via
the give-up branch (lines 294-299). -/
def loop_error_trace : List (Bool × Bool) → Nat → List Nat × Bool
  | [], _ => ([], false)
  | (gotChunk, raised) :: rest, consec =>
    let consec := if gotChunk then 0 else consec
    if raised then
      let c := consec + 1
      if 3 ≤ c then ([], true)
      else
        let r := loop_error_trace rest c
        (loop_backoff c :: r.1, r.2)
    else loop_error_trace rest 0

/-! ## Barge-in monitoring during playback (src/voice_pipeline.py 162-197) -/

/-- Number of audio chunks skipped before monitoring for barge-in
(voice_pipeline.py 55). -/
def BARGEIN_DEBOUNCE_CHUNKS : Nat := 15

/-- Outcome of the playback-monitoring loop: whether barge-in fired,
which side effects ran, the chunks_heard value at every wake.detect
invocation, and whether the monitor stream was closed (the finally
block at voice_pipeline.py 184-185 closes it on every exit path). -/
structure MonitorResult where
  bargein : Bool
  stoppedPlayback : Bool
  wakeResetInLoop : Bool
  detectCalls : List Nat
  streamClosed : Bool
deriving Repr, DecidableEq

/-- The for-chunk monitoring loop of _handle_command (voice_pipeline.py
168-185).  chunks is what the fresh audio.stream() yields; playing k is
audio.is_playing() at the k-th poll; detect is wake.detect on a chunk.
heard is the running chunks_heard counter and acc the detect-call log. -/
def monitor_go (detect : Nat → Bool) (playing : Nat → Bool) :
    List Nat → Nat → List Nat → MonitorResult
  | [], _, acc => ⟨false, false, false, acc, true⟩
  | c :: rest, heard, acc =>
    if playing heard = false then ⟨false, false, false, acc, true⟩
    else
      let heard' := heard + 1
      if heard' ≤ BARGEIN_DEBOUNCE_CHUNKS then monitor_go detect playing rest heard' acc
      else if detect c then ⟨true, true, true, acc ++ [heard'], true⟩
      else monitor_go detect playing rest heard' (acc ++ [heard'])

/-- The whole monitoring phase: bargein = False, chunks_heard = 0, then
the loop (voice_pipeline.py 168-185). -/
def monitor_playback (detect : Nat → Bool) (playing : Nat → Bool)
    (chunks : List Nat) : MonitorResult :=
  monitor_go detect playing chunks 0 []

/-- What _handle_command does after the monitoring loop (voice_pipeline.py
186-197): record had_bargein on the exchange, run the extra wake.reset
when no barge-in happened (line 192-193), and return
bargein or follow_up (line 197). -/
structure CommandTail where
  hadBargein : Bool
  extraWakeReset : Bool
  ret : Bool
deriving Repr, DecidableEq

/-- voice_pipeline.py 186-197 with follow_up := router.expects_follow_up. -/
def handle_command_tail (m : MonitorResult) (followUp : Bool) : CommandTail :=
  { hadBargein := m.bargein
    extraWakeReset := !m.bargein
    ret := m.bargein || followUp }

/-! ## Voice activity detection (src/utils/vad.py) -/

/-- The VoiceActivityDetector configuration (vad.py 19-25):
vad_silence_threshold, vad_silence_duration, vad_min_duration,
vad_max_duration, vad_speech_chunks_required.  Durations and the RMS
threshold are embedded as naturals (the source compares them only). -/
structure VadConfig where
  silenceThreshold : Nat
  silenceDuration : Nat
  minDuration : Nat
  maxDuration : Nat
  speechChunksRequired : Nat
deriving Repr, DecidableEq

/-- One chunk drawn from the stream: t is the elapsed monotonic time at
receipt (vad.py 54, relative to start), energy its RMS (vad.py 62), and
data its PCM bytes. -/
structure VadChunk where
  t : Nat
  energy : Nat
  data : List Nat
deriving Repr, DecidableEq

/-- The loop state of record_until_silence (vad.py 46-50): accumulated
chunks, silence_start, speech_chunks, speech_started. -/
structure VadState where
  consumed : List VadChunk
  silenceStart : Option Nat
  speechChunks : Nat
  speechStarted : Bool
deriving Repr, DecidableEq

/-- Why the recording loop stopped: the max-duration break (vad.py 58-60),
the silence break (vad.py 78-83), or stream exhaustion. -/
inductive VadStop
  | maxDur
  | silence
  | exhausted
deriving Repr, DecidableEq

/-- The returned recording: the consumed chunks, their concatenated PCM
(b"".join, vad.py 89), the stop reason, and the final loop flags. -/
structure VadResult where
  chunks : List VadChunk
  pcm : List Nat
  reason : VadStop
  speechStarted : Bool
  silenceStart : Option Nat
deriving Repr, DecidableEq

/-- Package a final loop state as the function's result (vad.py 87-89). -/
def vad_finish (st : VadState) (reason : VadStop) : VadResult :=
  { chunks := st.consumed
    pcm := (st.consumed.map VadChunk.data).flatten
    reason := reason
    speechStarted := st.speechStarted
    silenceStart := st.silenceStart }

/-- The for-chunk loop of VoiceActivityDetector.record_until_silence
(vad.py 52-83), transcribed branch for branch: append the chunk, break
on elapsed ≥ max_duration, count above-threshold chunks (setting
speech_started at speech_chunks ≥ required and clearing silence_start),
and once speech started track silence_start on below-threshold chunks,
breaking when the silence window ≥ silence_duration AND elapsed ≥
min_duration. -/
def vad_go (cfg : VadConfig) : List VadChunk → VadState → VadResult
  | [], st => vad_finish st .exhausted
  | c :: rest, st =>
    if cfg.maxDuration ≤ c.t then
      vad_finish { st with consumed := st.consumed ++ [c] } .maxDur
    else if cfg.silenceThreshold ≤ c.energy then
      vad_go cfg rest
        { consumed := st.consumed ++ [c]
          silenceStart := none
          speechChunks := st.speechChunks + 1
          speechStarted :=
            st.speechStarted || decide (cfg.speechChunksRequired ≤ st.speechChunks + 1) }
    else if st.speechStarted then
      if cfg.silenceDuration ≤ c.t - (st.silenceStart.getD c.t) ∧ cfg.minDuration ≤ c.t then
        vad_finish
          { st with consumed := st.consumed ++ [c]
                    silenceStart := some (st.silenceStart.getD c.t) } .silence
      else
        vad_go cfg rest
          { st with consumed := st.consumed ++ [c]
                    silenceStart := some (st.silenceStart.getD c.t) }
    else vad_go cfg rest { st with consumed := st.consumed ++ [c] }

/-- VoiceActivityDetector.record_until_silence (vad.py 35-89): initial
state has no chunks, silence_start = None, speech_chunks = 0, and
speech_started = (speech_chunks_required ≤ 0) (vad.py 46-50). -/
def record_until_silence (cfg : VadConfig) (chunks : List VadChunk) : VadResult :=
  vad_go cfg chunks ⟨[], none, 0, decide (cfg.speechChunksRequired ≤ 0)⟩

/-- Number of above-threshold chunks in a list (what speech_chunks counts:
it is never reset, vad.py 64-69). -/
def count_above (cfg : VadConfig) (cs : List VadChunk) : Nat :=
  (cs.filter (fun c => decide (cfg.silenceThreshold ≤ c.energy))).length

/-- The list ends in a contiguous below-threshold run whose first chunk
arrived at time s. -/
def SilenceRun (cfg : VadConfig) (consumed : List VadChunk) (s : Nat) : Prop :=
  ∃ pre c0 run, consumed = pre ++ c0 :: run
    ∧ c0.t = s ∧ c0.energy < cfg.silenceThreshold
    ∧ ∀ c ∈ run, c.energy < cfg.silenceThreshold

/-- Loop invariant of record_until_silence: speech_chunks counts the
above-threshold chunks consumed so far, speech_started holds exactly
when that cumulative count has reached the requirement (or the
requirement is 0), and silence_start, when set, marks the start of the
contiguous below-threshold run ending the consumed list, with speech
already started. -/
def VadInv (cfg : VadConfig) (st : VadState) : Prop :=
  st.speechChunks = count_above cfg st.consumed
  ∧ (st.speechStarted = true ↔
      (cfg.speechChunksRequired = 0 ∨ cfg.speechChunksRequired ≤ st.speechChunks))
  ∧ ∀ s, st.silenceStart = some s →
      st.speechStarted = true ∧ SilenceRun cfg st.consumed s

/-- The claim's reading of speech start: some run of n CONSECUTIVE
above-threshold chunks occurs (tracked as the longest such run). -/
def has_consecutive_above (thr n : Nat) (cs : List VadChunk) : Bool :=
  decide (n ≤ (cs.foldl
    (fun p c => if thr ≤ c.energy then (max p.1 (p.2 + 1), p.2 + 1) else (p.1, 0))
    ((0 : Nat), (0 : Nat))).1)

/-! ## Python string primitives

Lean's builtin String.toLower / trim / replace / splitOn are compiled
externs that the kernel cannot evaluate, so the Python string methods
used by the router (str.lower, str.strip, str.replace, the "in"
operator) are embedded as executable functions on the character list. -/

/-- Python str.lower (ASCII-relevant part). -/
def py_lower (s : String) : String := ⟨s.data.map Char.toLower⟩

/-- Python str.strip(): drop leading and trailing whitespace. -/
def py_strip (s : String) : String :=
  ⟨((s.data.dropWhile Char.isWhitespace).reverse.dropWhile Char.isWhitespace).reverse⟩

/-- Whether the second list begins the first. -/
def chars_start (l pat : List Char) : Bool :=
  match l, pat with
  | _, [] => true
  | [], _ :: _ => false
  | c :: cs, p :: ps => c == p && chars_start cs ps

/-- Leftmost non-overlapping replacement scan, fuelled by the remaining
length so the kernel can evaluate it (pat is nonempty at every use). -/
def replace_fuel (pat new : List Char) : Nat → List Char → List Char
  | 0, l => l
  | _ + 1, [] => []
  | fuel + 1, c :: cs =>
    if chars_start (c :: cs) pat then
      new ++ replace_fuel pat new fuel (List.drop (pat.length - 1) cs)
    else c :: replace_fuel pat new fuel cs

/-- Python str.replace(pat, new) for nonempty pat (the router only
replaces " " and "_"). -/
def py_replace (s pat new : String) : String :=
  if pat.data.isEmpty then s
  else ⟨replace_fuel pat.data new.data s.data.length s.data⟩

/-- Python substring containment: needle in hay. -/
def chars_contain (needle : List Char) : List Char → Bool
  | [] => needle.isEmpty
  | c :: cs => chars_start (c :: cs) needle || chars_contain needle cs

/-- Python "needle in hay" on strings. -/
def py_in (needle hay : String) : Bool := chars_contain needle.data hay.data

/-! ## Features and the intent router (src/features/base.py, src/intent/router.py) -/

/-- A feature as the router sees it (features/base.py): name, description,
the regex-era matches/handle pair, the structured execute dispatch
(which may raise: Except), the current expects_follow_up state, the
action schema and the multi-turn LLM context.  The matches predicate is
named matchesText because matches is reserved syntax in Lean. -/
structure Feature where
  name : String
  description : String
  matchesText : String → Bool
  handle : String → String
  execute : String → List (String × String) → Except Unit String
  expectsFollowUp : Bool
  actionSchema : List (String × List (String × String))
  llmContext : Option String

/-- Python dict assignment on an insertion-ordered association list:
overwrite in place when the key exists, else append. -/
def dict_set (m : List (String × Feature)) (k : String) (v : Feature) :
    List (String × Feature) :=
  match m with
  | [] => [(k, v)]
  | (k0, v0) :: rest =>
    if k0 == k then (k0, v) :: rest else (k0, v0) :: dict_set rest k v

/-- Python "k in dict". -/
def dict_mem (m : List (String × Feature)) (k : String) : Bool :=
  m.any (fun p => p.1 == k)

/-- Python dict[k] lookup (keys are unique by construction). -/
def dict_get (m : List (String × Feature)) (k : String) : Option Feature :=
  (m.find? (fun p => p.1 == k)).map (fun p => p.2)

/-- The feature-map construction of IntentRouter.__init__ (router.py
31-38): for each feature insert key = name.lower().replace(" ", "_"),
then also map the plain lowercase name when absent. -/
def build_feature_map : List Feature → List (String × Feature) → List (String × Feature)
  | [], m => m
  | f :: rest, m =>
    let key := py_replace (py_lower f.name) " " "_"
    let m1 := dict_set m key f
    let nameLower := py_lower f.name
    let m2 := if dict_mem m1 nameLower then m1 else m1 ++ [(nameLower, f)]
    build_feature_map rest m2

/-- The route metadata record published per route (spec §4.7):
{ path, matched_feature, feature_action }. -/
structure RouteInfo where
  path : String
  matchedFeature : Option String
  featureAction : Option String
deriving Repr, DecidableEq

/-- A harvested per-call LLM record (telemetry/models.py 21-36 and the
last_call_info dicts of claude_llm.py). -/
structure LLMCallInfo where
  callType : String
  model : Option String
  systemPrompt : Option String
  userMessage : Option String
  responseText : Option String
  inputTokens : Option Int
  outputTokens : Option Int
  stopReason : Option String
  durationMs : Option Int
  error : Option String
deriving Repr, DecidableEq

/-- The mutable state of an IntentRouter (router.py 21-38), together with
the published last_route_info / last_llm_calls of spec §4.7 (see the
route definitions below for their modelling). -/
structure RouterState where
  features : List Feature
  featureMap : List (String × Feature)
  recoveryEnabled : Bool
  featureDescriptions : List String
  lastFeature : Option Feature
  llmExpectsFollowUp : Bool
  lastRouteInfo : Option RouteInfo
  lastLlmCalls : List LLMCallInfo

/-- IntentRouter.expects_follow_up (router.py 44-50): feature state takes
priority; otherwise the last LLM-signalled value. -/
def router_expects_follow_up (rs : RouterState) : Bool :=
  match rs.lastFeature with
  | some f => f.expectsFollowUp || rs.llmExpectsFollowUp
  | none => rs.llmExpectsFollowUp

/-- IntentRouter._find_feature (router.py 127-146): empty-name guard,
lowercase + strip, direct lookup, underscore/space variants, then
substring match as last resort. -/
def find_feature (fm : List (String × Feature)) (name : String) : Option Feature :=
  if name = "" then none
  else
    match dict_get fm (py_strip (py_lower name)) with
    | some f => some f
    | none =>
      match dict_get fm (py_replace (py_strip (py_lower name)) "_" " ") with
      | some f => some f
      | none =>
        match dict_get fm (py_replace (py_strip (py_lower name)) " " "_") with
        | some f => some f
        | none =>
          (fm.find? (fun p =>
            py_in (py_strip (py_lower name)) p.1
              || py_in p.1 (py_strip (py_lower name)))).map (fun p => p.2)

/-- IntentRouter._find_feature with the empty-name guard (router.py
129-130) deleted — the counterfactual variant that claim C10's
load-bearing argument is about; otherwise identical to find_feature. -/
def find_feature_unguarded (fm : List (String × Feature)) (name : String) : Option Feature :=
  match dict_get fm (py_strip (py_lower name)) with
  | some f => some f
  | none =>
    match dict_get fm (py_replace (py_strip (py_lower name)) "_" " ") with
    | some f => some f
    | none =>
      match dict_get fm (py_replace (py_strip (py_lower name)) " " "_") with
      | some f => some f
      | none =>
        (fm.find? (fun p =>
          py_in (py_strip (py_lower name)) p.1
            || py_in p.1 (py_strip (py_lower name)))).map (fun p => p.2)

/-- The outcomes of the (up to three) LLM calls one route can make, with
the per-call record each call leaves in last_call_info.  parse_intent
and respond may raise (.error); classify_intent returning .ok none
covers both the NONE marker and its internally-caught API errors, while
.error models a raising implementation (caught by the router's
try/except at router.py 164-176). -/
structure LLMOracle where
  parseApi : Except String (Option ParsedIntent)
  parseCall : LLMCallInfo
  classifyApi : Except Unit (Option String)
  classifyCall : LLMCallInfo
  respondApi : Except String String
  respondCall : LLMCallInfo

/-- What one IntentRouter.route call produces: the spoken response, the
router state after the call, and the LLM state after the call. -/
structure RouteResult where
  resp : String
  rs : RouterState
  ls : LLMState

/-- Step 4 of IntentRouter.route (router.py 178-182): clear last_feature
and the LLM follow-up flag, then respond(text).  The published
last_route_info / last_llm_calls fields are Modelled from the spec
(§4.7): the publication code is absent from src/src/intent/router.py —
its only traces are the orchestrator's reads of
router._last_route_info / router._last_llm_calls at voice_pipeline.py
117-122 — so each terminal branch publishes the route taken and the
calls harvested so far, per the spec's words. -/
def route_fallback (rs : RouterState) (ls : LLMState) (orc : LLMOracle)
    (text : String) (now : Nat) (calls : List LLMCallInfo) : RouteResult :=
  let r := respond_llm ls text now orc.respondApi
  { resp := r.1
    rs := { rs with lastFeature := none
                    llmExpectsFollowUp := false
                    lastRouteInfo := some ⟨"llm_fallback", none, none⟩
                    lastLlmCalls := calls ++ [orc.respondCall] }
    ls := r.2 }

/-- Step 3 of IntentRouter.route (router.py 162-176), intent recovery: if
enabled and some feature has a description, call classify_intent; a
raised error is swallowed; a falsy result (None or "") falls through;
otherwise re-run the regex round on the corrected text, recording the
ORIGINAL text with the result (line 172).  Publication of
last_route_info / last_llm_calls as in route_fallback (spec-modelled,
spec §4.7). -/
def route_recovery (rs : RouterState) (ls : LLMState) (orc : LLMOracle)
    (text : String) (now : Nat) (calls : List LLMCallInfo) : RouteResult :=
  if rs.recoveryEnabled && !rs.featureDescriptions.isEmpty then
    let calls1 := calls ++ [orc.classifyCall]
    match orc.classifyApi with
    | .error _ => route_fallback rs ls orc text now calls1
    | .ok none => route_fallback rs ls orc text now calls1
    | .ok (some corrected) =>
      if corrected = "" then route_fallback rs ls orc text now calls1
      else
        match rs.features.find? (fun f => f.matchesText corrected) with
        | some f =>
          { resp := f.handle corrected
            rs := { rs with lastFeature := some f
                            lastRouteInfo := some ⟨"recovery", some f.name, none⟩
                            lastLlmCalls := calls1 }
            ls := record_exchange ls text (f.handle corrected) now }
        | none => route_fallback rs ls orc text now calls1
  else route_fallback rs ls orc text now calls

/-- Step 2 of IntentRouter.route (router.py 155-160) via _try_features
(router.py 52-59): the first feature whose matches(text) is true wins;
set last_feature, clear the LLM follow-up flag, record (text, result).
Publication of last_route_info / last_llm_calls as in route_fallback
(spec-modelled, spec §4.7). -/
def route_regex (rs : RouterState) (ls : LLMState) (orc : LLMOracle)
    (text : String) (now : Nat) (calls : List LLMCallInfo) : RouteResult :=
  match rs.features.find? (fun f => f.matchesText text) with
  | some f =>
    { resp := f.handle text
      rs := { rs with lastFeature := some f
                      llmExpectsFollowUp := false
                      lastRouteInfo := some ⟨"regex", some f.name, none⟩
                      lastLlmCalls := calls }
      ls := record_exchange ls text (f.handle text) now }
  | none => route_recovery rs ls orc text now calls

/-- IntentRouter.route (router.py 148-182) with step 1, _try_llm_parse
(router.py 61-125): parse_intent first; an action resolves the feature
via _find_feature (falling through to the regex stage when unknown or
when execute raises with empty speech, with last_feature and the LLM
follow-up flag already mutated, router.py 100-101); conversation and
clarification record and return speech; unknown types fall through.
Publication of last_route_info / last_llm_calls as in route_fallback
(spec-modelled, spec §4.7). -/
def route (rs : RouterState) (ls : LLMState) (orc : LLMOracle)
    (text : String) (now : Nat) : RouteResult :=
  match (parse_intent ls now orc.parseApi).1 with
  | none =>
    route_regex rs (parse_intent ls now orc.parseApi).2 orc text now [orc.parseCall]
  | some pi =>
    match pi.type with
    | .action =>
      match find_feature rs.featureMap pi.feature with
      | none =>
        route_regex rs (parse_intent ls now orc.parseApi).2 orc text now [orc.parseCall]
      | some feat =>
        match feat.execute pi.action pi.params with
        | .ok result =>
          { resp := result
            rs := { rs with lastFeature := some feat
                            llmExpectsFollowUp := pi.expectsFollowUp.getD false
                            lastRouteInfo :=
                              some ⟨"llm_parse", some feat.name, some pi.action⟩
                            lastLlmCalls := [orc.parseCall] }
            ls := record_exchange (parse_intent ls now orc.parseApi).2 text result now }
        | .error _ =>
          if pi.speech = "" then
            route_regex
              { rs with lastFeature := some feat
                        llmExpectsFollowUp := pi.expectsFollowUp.getD false }
              (parse_intent ls now orc.parseApi).2 orc text now [orc.parseCall]
          else
            { resp := pi.speech
              rs := { rs with lastFeature := some feat
                              llmExpectsFollowUp := pi.expectsFollowUp.getD false
                              lastRouteInfo :=
                                some ⟨"llm_parse", some feat.name, some pi.action⟩
                              lastLlmCalls := [orc.parseCall] }
              ls := record_exchange (parse_intent ls now orc.parseApi).2 text pi.speech now }
    | .conversation =>
      { resp := pi.speech
        rs := { rs with lastFeature := none
                        llmExpectsFollowUp := pi.expectsFollowUp.getD false
                        lastRouteInfo := some ⟨"llm_parse", none, none⟩
                        lastLlmCalls := [orc.parseCall] }
        ls := record_exchange (parse_intent ls now orc.parseApi).2 text pi.speech now }
    | .clarification =>
      { resp := pi.speech
        rs := { rs with llmExpectsFollowUp := pi.expectsFollowUp.getD true
                        lastRouteInfo := some ⟨"llm_parse", none, none⟩
                        lastLlmCalls := [orc.parseCall] }
        ls := record_exchange (parse_intent ls now orc.parseApi).2 text pi.speech now }
    | .other =>
      route_regex rs (parse_intent ls now orc.parseApi).2 orc text now [orc.parseCall]

/-- The Exchange fields the orchestrator copies route metadata into
(telemetry/models.py 48-89, reduced to the routing fields). -/
structure ExchangeMeta where
  routingPath : Option String
  matchedFeature : Option String
  featureAction : Option String
  llmCalls : List LLMCallInfo
deriving Repr, DecidableEq

/-- The orchestrator's routing-metadata harvest (voice_pipeline.py
116-134): when last_route_info is set (a truthy dict), copy path,
matched_feature and feature_action onto the Exchange, then append one
LLMCallInfo per harvested call record. -/
def harvest_exchange (ex : ExchangeMeta) (rs : RouterState) : ExchangeMeta :=
  let ex1 := match rs.lastRouteInfo with
    | some info =>
      { ex with routingPath := some info.path
                matchedFeature := info.matchedFeature
                featureAction := info.featureAction }
    | none => ex
  { ex1 with llmCalls := ex1.llmCalls ++ rs.lastLlmCalls }

/-- Sample feature for concrete witnesses: matches exactly "milk",
handles it with "ok", and has no structured execute. -/
def sample_feature : Feature :=
  ⟨"grocery", "the grocery list", fun t => t == "milk", fun _ => "ok",
    fun _ _ => .error (), false, [], none⟩

/-- An empty per-call record for concrete witnesses. -/
def sample_call : LLMCallInfo :=
  ⟨"parse_intent", none, none, none, none, none, none, none, none, none⟩

/-- Sample router state for concrete witnesses. -/
def sample_router : RouterState :=
  ⟨[sample_feature], [("grocery", sample_feature)], true, ["the grocery list"],
    none, false, none, []⟩

/-- Sample LLM state (TTL disabled, empty history) for witnesses. -/
def sample_llm : LLMState := ⟨10, 0, []⟩

/-- Oracle whose parse_intent yields no structure. -/
def sample_oracle_none : LLMOracle :=
  ⟨.ok none, sample_call, .ok none, sample_call, .ok "resp", sample_call⟩

/-- A conversation-type parse result. -/
def sample_pi_conv : ParsedIntent := ⟨.conversation, "", "", [], "hi", some false⟩

/-- Oracle whose parse_intent yields a conversation intent. -/
def sample_oracle_conv : LLMOracle :=
  ⟨.ok (some sample_pi_conv), sample_call, .ok none, sample_call, .ok "resp", sample_call⟩

/-- An action-type parse result whose feature field is missing (read as ""). -/
def sample_pi_action_nofeat : ParsedIntent := ⟨.action, "", "add", [], "sp", some false⟩

/-- Oracle whose parse_intent yields an action naming no feature. -/
def sample_oracle_action : LLMOracle :=
  ⟨.ok (some sample_pi_action_nofeat), sample_call, .ok none, sample_call,
    .ok "resp", sample_call⟩

/-! ## Telemetry store (src/telemetry/store.py) -/

/-- A sessions row (store.py 15-21), reduced to the columns pruning reads:
the primary key and started_at.  started_at is an ISO-8601 TEXT whose
lexicographic order is chronological; it is embedded as a natural. -/
structure SessionRow where
  id : String
  startedAt : Nat
deriving Repr, DecidableEq

/-- An exchanges row (store.py 23-47), reduced to id and its session_id
foreign key. -/
structure ExchangeRow where
  id : String
  sessionId : String
deriving Repr, DecidableEq

/-- An llm_calls row (store.py 49-64), reduced to its exchange_id foreign
key. -/
structure LLMCallRow where
  exchangeId : String
deriving Repr, DecidableEq

/-- The three relations of the telemetry database. -/
structure TelemetryDB where
  sessions : List SessionRow
  exchanges : List ExchangeRow
  llmCalls : List LLMCallRow
deriving Repr, DecidableEq

/-- Sessions ordered by started_at ascending (the ORDER BY of store.py
207). -/
def sorted_sessions (db : TelemetryDB) : List SessionRow :=
  db.sessions.mergeSort (fun a b => decide (a.startedAt ≤ b.startedAt))

/-- max(1, total // 10): how many sessions pruning deletes (store.py 205). -/
def num_to_delete (db : TelemetryDB) : Nat := max 1 (db.sessions.length / 10)

/-- The ids selected for deletion: the oldest max(1, total // 10) sessions
by started_at (store.py 205-210). -/
def prune_ids (db : TelemetryDB) : List String :=
  ((sorted_sessions db).take (num_to_delete db)).map (fun s => s.id)

/-- TelemetryStore._maybe_prune (store.py 191-237): return unchanged when
the file size (an oracle input for os.path.getsize) does not exceed
max_size_bytes or no session exists; otherwise, in one transaction,
delete the llm_calls of the exchanges of the selected sessions, those
exchanges, and those sessions (store.py 213-227). -/
def maybe_prune (maxSizeBytes size : Nat) (db : TelemetryDB) : TelemetryDB :=
  if size ≤ maxSizeBytes then db
  else if db.sessions.length = 0 then db
  else
    { sessions := db.sessions.filter (fun s => decide (¬ s.id ∈ prune_ids db))
      exchanges := db.exchanges.filter (fun e => decide (¬ e.sessionId ∈ prune_ids db))
      llmCalls := db.llmCalls.filter (fun c =>
        decide (¬ c.exchangeId ∈
          ((db.exchanges.filter (fun e => decide (e.sessionId ∈ prune_ids db))).map
            (fun e => e.id)))) }

/-- TelemetryStore.save_session (store.py 88-108): insert the session row,
its exchange rows and their llm_calls rows, commit, then _maybe_prune
against the resulting file size (an oracle input). -/
def save_session (maxSizeBytes : Nat) (db : TelemetryDB) (s : SessionRow)
    (exs : List ExchangeRow) (calls : List LLMCallRow) (sizeAfter : Nat) : TelemetryDB :=
  maybe_prune maxSizeBytes sizeAfter
    ⟨db.sessions ++ [s], db.exchanges ++ exs, db.llmCalls ++ calls⟩

/-- Referential integrity of the three relations: every exchange row
references an existing session, every llm_calls row an existing
exchange. -/
def DBIntegrity (db : TelemetryDB) : Prop :=
  (∀ e ∈ db.exchanges, ∃ s ∈ db.sessions, s.id = e.sessionId)
  ∧ (∀ c ∈ db.llmCalls, ∃ e ∈ db.exchanges, e.id = c.exchangeId)

/-! ## Theorems: the claims settled against the embedding -/

/-- Claim C5 counterexample: with history TTL 1 second and one entry
recorded at time 0, calling parse_intent at time 5 shrinks the history
from one entry to zero — lazy TTL expiry does mutate it, refuting "the
history length immediately after the call equals the length immediately
before, regardless of the configured history TTL". -/
theorem parse_intent_mutates_expired_history :
    ¬ ((parse_intent ⟨10, 1, [⟨"u", "a", 0⟩]⟩ 5 (.ok none)).2.history.length
        = (⟨10, 1, [⟨"u", "a", 0⟩]⟩ : LLMState).history.length) := by
  decide

/-- Claim C5 (amended): parse_intent never appends to the conversation
history — in every outcome (API error, reply without a tool block, or a
parsed structure) the post-call history is exactly the lazily
TTL-expired pre-call history, so its length never increases, and it is
unchanged whenever the TTL is disabled (≤ 0). -/
theorem parse_intent_history_effect (st : LLMState) (now : Nat)
    (api : Except String (Option ParsedIntent)) :
    (parse_intent st now api).2.history = (expire_history st now).history
    ∧ (parse_intent st now api).2.history.length ≤ st.history.length
    ∧ (st.historyTtl ≤ 0 → (parse_intent st now api).2.history = st.history) := by
  have hst : (parse_intent st now api).2 = expire_history st now := by
    unfold parse_intent
    cases api with
    | error e => rfl
    | ok o => cases o <;> rfl
  refine ⟨by rw [hst], ?_, ?_⟩
  · rw [hst]
    unfold expire_history
    by_cases h : st.historyTtl ≤ 0
    · simp [h]
    · simp only [if_neg h]
      exact List.length_filter_le _ _
  · intro h
    rw [hst]
    unfold expire_history
    simp [h]

/-- Claim C5 witness: at a concrete state with the TTL disabled, the
history is unchanged by parse_intent. -/
theorem parse_intent_history_effect_witness :
    (parse_intent ⟨10, 0, [⟨"u", "a", 0⟩]⟩ 5 (.ok none)).2.history
      = [⟨"u", "a", 0⟩] := by
  exact (parse_intent_history_effect ⟨10, 0, [⟨"u", "a", 0⟩]⟩ 5 (.ok none)).2.2 (by decide)

/-- Claim C3 counterexample: three consecutive iterations of the outer
loop body that raise before yielding any chunk produce exactly two
backoff sleeps, of 2 and 4 seconds, before the loop gives up — not the
three backoffs {2, 4, 8} the claim states: the give-up check at
voice_pipeline.py 294 runs before the backoff at line 300, so the third
consecutive error exits without sleeping. -/
theorem loop_three_errors_not_three_backoffs :
    loop_error_trace [(false, true), (false, true), (false, true)] 0 = ([2, 4], true)
    ∧ ¬ ((loop_error_trace [(false, true), (false, true), (false, true)] 0).1
          = [2, 4, 8]) := by
  constructor <;> decide

/-- Claim C3 (amended): when the outer loop body raises on three
consecutive iterations, the orchestrator sleeps min(2 ** n, 30) seconds
after the n-th consecutive error only for n < max_consecutive_errors —
it logs two retries with backoffs of 2 and 4 seconds — and at the third
consecutive error (max_consecutive_errors = 3) it logs and exits the
loop without a further backoff, regardless of what follows. -/
theorem loop_three_errors_exit (rest : List (Bool × Bool)) :
    loop_error_trace ((false, true) :: (false, true) :: (false, true) :: rest) 0
      = ([loop_backoff 1, loop_backoff 2], true)
    ∧ loop_backoff 1 = 2 ∧ loop_backoff 2 = 4 := by
  refine ⟨?_, by decide, by decide⟩
  simp [loop_error_trace, loop_backoff]

/-- Structural facts about the monitoring loop: the stream is closed on
every exit path (the finally block), and the stop-playback and
wake-reset side effects happen exactly on the barge-in exit. -/
theorem monitor_go_shape (detect playing : Nat → Bool) :
    ∀ (chunks : List Nat) (heard : Nat) (acc : List Nat),
      (monitor_go detect playing chunks heard acc).streamClosed = true
      ∧ (monitor_go detect playing chunks heard acc).stoppedPlayback
          = (monitor_go detect playing chunks heard acc).bargein
      ∧ (monitor_go detect playing chunks heard acc).wakeResetInLoop
          = (monitor_go detect playing chunks heard acc).bargein := by
  intro chunks
  induction chunks with
  | nil => intro heard acc; exact ⟨rfl, rfl, rfl⟩
  | cons c rest ih =>
    intro heard acc
    unfold monitor_go
    by_cases hp : playing heard = false
    · simp [hp]
    · simp only [if_neg hp]
      by_cases hd : heard + 1 ≤ BARGEIN_DEBOUNCE_CHUNKS
      · simpa [hd] using ih (heard + 1) acc
      · by_cases hw : detect c
        · simp [hd, hw]
        · simpa [hd, hw] using ih (heard + 1) (acc ++ [heard + 1])

/-- Every chunks_heard value at which wake.detect is invoked is past the
debounce bound, provided the accumulator already satisfies that. -/
theorem monitor_go_detect_lower (detect playing : Nat → Bool) :
    ∀ (chunks : List Nat) (heard : Nat) (acc : List Nat),
      (∀ i ∈ acc, BARGEIN_DEBOUNCE_CHUNKS < i) →
      ∀ i ∈ (monitor_go detect playing chunks heard acc).detectCalls,
        BARGEIN_DEBOUNCE_CHUNKS < i := by
  intro chunks
  induction chunks with
  | nil => intro heard acc hacc; exact hacc
  | cons c rest ih =>
    intro heard acc hacc
    unfold monitor_go
    by_cases hp : playing heard = false
    · simp only [hp, if_pos rfl]; exact hacc
    · simp only [if_neg hp]
      by_cases hd : heard + 1 ≤ BARGEIN_DEBOUNCE_CHUNKS
      · simp only [if_pos hd]; exact ih (heard + 1) acc hacc
      · have hgt : BARGEIN_DEBOUNCE_CHUNKS < heard + 1 := Nat.lt_of_not_le hd
        have hacc' : ∀ i ∈ acc ++ [heard + 1], BARGEIN_DEBOUNCE_CHUNKS < i := by
          intro i hi
          rcases List.mem_append.mp hi with h | h
          · exact hacc i h
          · rcases List.mem_singleton.mp h with rfl; exact hgt
        by_cases hw : detect c
        · simp only [if_neg hd, if_pos hw]; exact hacc'
        · simp only [if_neg hd, if_neg hw]; exact ih (heard + 1) (acc ++ [heard + 1]) hacc'

/-- Claim C9: during barge-in monitoring, wake.detect is never invoked on
any of the first BARGEIN_DEBOUNCE_CHUNKS = 15 chunks read from the
monitor stream — every recorded detect call has chunks_heard > 15 — and
with the default 80 ms chunk duration those 15 skipped chunks span
15 * 80 = 1200 ms, so no self-interruption can occur within the first
1.2 seconds of monitoring. -/
theorem bargein_debounce_no_early_detect (detect playing : Nat → Bool)
    (chunks : List Nat) (i : Nat)
    (hi : i ∈ (monitor_playback detect playing chunks).detectCalls) :
    BARGEIN_DEBOUNCE_CHUNKS < i ∧ BARGEIN_DEBOUNCE_CHUNKS * 80 = 1200 := by
  refine ⟨?_, by decide⟩
  exact monitor_go_detect_lower detect playing chunks 0 []
    (by intro j hj; cases hj) i hi

/-- Claim C9 witness: a concrete 16-chunk monitor run whose single detect
call happens at chunks_heard = 16, which is past the debounce bound. -/
theorem bargein_debounce_no_early_detect_witness :
    16 ∈ (monitor_playback (fun _ => false) (fun _ => true) (List.range 16)).detectCalls
    ∧ BARGEIN_DEBOUNCE_CHUNKS < 16 := by
  have hmem :
      16 ∈ (monitor_playback (fun _ => false) (fun _ => true) (List.range 16)).detectCalls := by
    decide
  exact ⟨hmem,
    (bargein_debounce_no_early_detect (fun _ => false) (fun _ => true)
      (List.range 16) 16 hmem).1⟩

/-- Claim C4 counterexample: wake fires on the 16th monitored chunk (the
first one past the debounce window) while playback is live; the
monitoring loop reports barge-in, and _handle_command records the
interrupted Exchange with had_bargein = true (voice_pipeline.py 189) —
not false as the claim states. -/
theorem bargein_records_had_bargein_true :
    (monitor_playback (fun c => decide (c = 15)) (fun _ => true) (List.range 16)).bargein = true
    ∧ ¬ ((handle_command_tail
          (monitor_playback (fun c => decide (c = 15)) (fun _ => true) (List.range 16))
          false).hadBargein = false) := by
  constructor <;> decide

/-- Claim C4 (amended): when the wake detector fires on a monitored chunk
after the barge-in debounce window during playback, audio.stop_playback
is called, wake.reset is called, the monitor stream is closed, the
command handler returns true — so the orchestrator's inner while loop
(voice_pipeline.py 276) immediately begins the next capture within the
same Session — and the interrupted Exchange is recorded with
had_bargein = true. -/
theorem bargein_effects (detect playing : Nat → Bool) (chunks : List Nat)
    (followUp : Bool)
    (hb : (monitor_playback detect playing chunks).bargein = true) :
    (monitor_playback detect playing chunks).stoppedPlayback = true
    ∧ (monitor_playback detect playing chunks).wakeResetInLoop = true
    ∧ (monitor_playback detect playing chunks).streamClosed = true
    ∧ (handle_command_tail (monitor_playback detect playing chunks) followUp).ret = true
    ∧ (handle_command_tail (monitor_playback detect playing chunks) followUp).hadBargein
        = true := by
  have hs := monitor_go_shape detect playing chunks 0 []
  refine ⟨hs.2.1.trans hb, hs.2.2.trans hb, hs.1, ?_, hb⟩
  simp [handle_command_tail, hb]

/-- Claim C4 witness: the amended theorem applied at the concrete barge-in
run of the counterexample scenario's shape. -/
theorem bargein_effects_witness :
    (handle_command_tail
      (monitor_playback (fun c => decide (c = 15)) (fun _ => true) (List.range 16))
      false).ret = true := by
  exact (bargein_effects (fun c => decide (c = 15)) (fun _ => true) (List.range 16)
    false (by decide)).2.2.2.1

/-- Extending a consumed list that ends in a below-threshold run with one
more below-threshold chunk keeps the run contiguous. -/
theorem silenceRun_extend (cfg : VadConfig) (consumed : List VadChunk) (s : Nat)
    (c : VadChunk) (h : SilenceRun cfg consumed s)
    (hc : c.energy < cfg.silenceThreshold) : SilenceRun cfg (consumed ++ [c]) s := by
  obtain ⟨pre, c0, run, hsplit, hts, hc0, hrun⟩ := h
  refine ⟨pre, c0, run ++ [c], ?_, hts, hc0, ?_⟩
  · rw [hsplit]; simp
  · intro x hx
    rcases List.mem_append.mp hx with h | h
    · exact hrun x h
    · rcases List.mem_singleton.mp h with rfl; exact hc

/-- Invariant preservation: an above-threshold chunk. -/
theorem vadInv_step_speech (cfg : VadConfig) (st : VadState) (c : VadChunk)
    (hinv : VadInv cfg st) (h2 : cfg.silenceThreshold ≤ c.energy) :
    VadInv cfg
      { consumed := st.consumed ++ [c]
        silenceStart := none
        speechChunks := st.speechChunks + 1
        speechStarted :=
          st.speechStarted || decide (cfg.speechChunksRequired ≤ st.speechChunks + 1) } := by
  obtain ⟨hcount, hstart, _⟩ := hinv
  refine ⟨?_, ?_, ?_⟩
  · simp [count_above, List.filter_append, h2] at hcount ⊢
    exact hcount
  · simp only [Bool.or_eq_true, decide_eq_true_eq, hstart]
    omega
  · intro s hs; simp at hs

/-- Invariant preservation: a below-threshold chunk after speech started. -/
theorem vadInv_step_below_started (cfg : VadConfig) (st : VadState) (c : VadChunk)
    (hinv : VadInv cfg st) (h2 : ¬ cfg.silenceThreshold ≤ c.energy)
    (h3 : st.speechStarted = true) :
    VadInv cfg
      { st with consumed := st.consumed ++ [c]
                silenceStart := some (st.silenceStart.getD c.t) } := by
  obtain ⟨hcount, hstart, hsil⟩ := hinv
  have hcb : c.energy < cfg.silenceThreshold := Nat.lt_of_not_le h2
  refine ⟨?_, hstart, ?_⟩
  · simp [count_above, List.filter_append, h2] at hcount ⊢
    exact hcount
  · intro s hs
    refine ⟨h3, ?_⟩
    simp only [Option.some.injEq] at hs
    cases hold : st.silenceStart with
    | none =>
      rw [hold] at hs
      simp only [Option.getD_none] at hs
      exact ⟨st.consumed, c, [], by simp, by rw [hs], hcb, by intro x hx; cases hx⟩
    | some s0 =>
      rw [hold] at hs
      simp only [Option.getD_some] at hs
      obtain ⟨_, hrun⟩ := hsil s0 hold
      rw [← hs]
      exact silenceRun_extend cfg st.consumed s0 c hrun hcb

/-- Invariant preservation: a below-threshold chunk before speech started. -/
theorem vadInv_step_below_not_started (cfg : VadConfig) (st : VadState) (c : VadChunk)
    (hinv : VadInv cfg st) (h2 : ¬ cfg.silenceThreshold ≤ c.energy)
    (h3 : st.speechStarted = false) :
    VadInv cfg { st with consumed := st.consumed ++ [c] } := by
  obtain ⟨hcount, hstart, hsil⟩ := hinv
  refine ⟨?_, hstart, ?_⟩
  · simp [count_above, List.filter_append, h2] at hcount ⊢
    exact hcount
  · intro s hs
    have := (hsil s hs).1
    rw [h3] at this
    cases this

/-- The recording is always a consumed prefix of the stream, appended to
the state's accumulator. -/
theorem vad_go_consumed (cfg : VadConfig) :
    ∀ (chunks : List VadChunk) (st : VadState),
      ∃ k, (vad_go cfg chunks st).chunks = st.consumed ++ chunks.take k := by
  intro chunks
  induction chunks with
  | nil => intro st; exact ⟨0, by simp [vad_go, vad_finish]⟩
  | cons c rest ih =>
    intro st
    simp only [vad_go]
    by_cases h1 : cfg.maxDuration ≤ c.t
    · exact ⟨1, by simp [if_pos h1, vad_finish]⟩
    · rw [if_neg h1]
      by_cases h2 : cfg.silenceThreshold ≤ c.energy
      · rw [if_pos h2]
        obtain ⟨k, hk⟩ := ih
          { consumed := st.consumed ++ [c]
            silenceStart := none
            speechChunks := st.speechChunks + 1
            speechStarted :=
              st.speechStarted || decide (cfg.speechChunksRequired ≤ st.speechChunks + 1) }
        exact ⟨k + 1, by simpa using hk⟩
      · rw [if_neg h2]
        by_cases h3 : st.speechStarted = true
        · rw [if_pos h3]
          by_cases h4 : cfg.silenceDuration ≤ c.t - st.silenceStart.getD c.t
              ∧ cfg.minDuration ≤ c.t
          · exact ⟨1, by simp [if_pos h4, vad_finish]⟩
          · rw [if_neg h4]
            obtain ⟨k, hk⟩ := ih
              { st with consumed := st.consumed ++ [c]
                        silenceStart := some (st.silenceStart.getD c.t) }
            exact ⟨k + 1, by simpa using hk⟩
        · rw [if_neg h3]
          obtain ⟨k, hk⟩ := ih { st with consumed := st.consumed ++ [c] }
          exact ⟨k + 1, by simpa using hk⟩

/-- The returned PCM is always the concatenation of the returned chunks'
payloads. -/
theorem vad_go_pcm (cfg : VadConfig) :
    ∀ (chunks : List VadChunk) (st : VadState),
      (vad_go cfg chunks st).pcm
        = ((vad_go cfg chunks st).chunks.map VadChunk.data).flatten := by
  intro chunks
  induction chunks with
  | nil => intro st; rfl
  | cons c rest ih =>
    intro st
    simp only [vad_go]
    by_cases h1 : cfg.maxDuration ≤ c.t
    · rw [if_pos h1]; rfl
    · rw [if_neg h1]
      by_cases h2 : cfg.silenceThreshold ≤ c.energy
      · rw [if_pos h2]; exact ih _
      · rw [if_neg h2]
        by_cases h3 : st.speechStarted = true
        · rw [if_pos h3]
          by_cases h4 : cfg.silenceDuration ≤ c.t - st.silenceStart.getD c.t
              ∧ cfg.minDuration ≤ c.t
          · rw [if_pos h4]; rfl
          · rw [if_neg h4]; exact ih _
        · rw [if_neg h3]; exact ih _

/-- A silence-triggered stop implies: speech had started with the required
cumulative count of above-threshold chunks, the recording ends in a
contiguous below-threshold run of span at least silence_duration, and
the elapsed time at the stop chunk is at least min_duration. -/
theorem vad_go_silence_spec (cfg : VadConfig) :
    ∀ (chunks : List VadChunk) (st : VadState), VadInv cfg st →
      (vad_go cfg chunks st).reason = .silence →
      (vad_go cfg chunks st).speechStarted = true
      ∧ cfg.speechChunksRequired ≤ count_above cfg (vad_go cfg chunks st).chunks
      ∧ ∃ s last,
          (vad_go cfg chunks st).silenceStart = some s
          ∧ (vad_go cfg chunks st).chunks.getLast? = some last
          ∧ cfg.minDuration ≤ last.t
          ∧ cfg.silenceDuration ≤ last.t - s
          ∧ SilenceRun cfg (vad_go cfg chunks st).chunks s := by
  intro chunks
  induction chunks with
  | nil =>
    intro st _ hr
    simp [vad_go, vad_finish] at hr
  | cons c rest ih =>
    intro st hinv hr
    simp only [vad_go] at hr ⊢
    by_cases h1 : cfg.maxDuration ≤ c.t
    · rw [if_pos h1] at hr
      simp [vad_finish] at hr
    · rw [if_neg h1] at hr ⊢
      by_cases h2 : cfg.silenceThreshold ≤ c.energy
      · rw [if_pos h2] at hr ⊢
        exact ih _ (vadInv_step_speech cfg st c hinv h2) hr
      · rw [if_neg h2] at hr ⊢
        by_cases h3 : st.speechStarted = true
        · rw [if_pos h3] at hr ⊢
          by_cases h4 : cfg.silenceDuration ≤ c.t - st.silenceStart.getD c.t
              ∧ cfg.minDuration ≤ c.t
          · rw [if_pos h4]
            obtain ⟨hcount, hstart, hsil⟩ := hinv
            have hcb : c.energy < cfg.silenceThreshold := Nat.lt_of_not_le h2
            refine ⟨h3, ?_, st.silenceStart.getD c.t, c, rfl, ?_, h4.2, h4.1, ?_⟩
            · have hle : cfg.speechChunksRequired ≤ st.speechChunks := by
                rcases hstart.mp h3 with h | h
                · omega
                · exact h
              have hceq : count_above cfg (st.consumed ++ [c]) = count_above cfg st.consumed := by
                simp [count_above, List.filter_append, h2]
              show cfg.speechChunksRequired ≤ count_above cfg (st.consumed ++ [c])
              omega
            · show (st.consumed ++ [c]).getLast? = some c
              simp
            · show SilenceRun cfg (st.consumed ++ [c]) (st.silenceStart.getD c.t)
              cases hold : st.silenceStart with
              | none =>
                simp only [hold, Option.getD_none]
                exact ⟨st.consumed, c, [], by simp, rfl, hcb, by intro x hx; cases hx⟩
              | some s0 =>
                simp only [hold, Option.getD_some]
                obtain ⟨_, hrun⟩ := hsil s0 hold
                exact silenceRun_extend cfg st.consumed s0 c hrun hcb
          · rw [if_neg h4] at hr ⊢
            exact ih _ (vadInv_step_below_started cfg st c hinv h2 h3) hr
        · rw [if_neg h3] at hr ⊢
          have h3f : st.speechStarted = false := by
            cases hb : st.speechStarted
            · rfl
            · exact absurd hb h3
          exact ih _ (vadInv_step_below_not_started cfg st c hinv h2 h3f) hr

/-- Under continuous speech (every chunk above threshold), the loop stops
exactly via the max-duration safety net as soon as a chunk arrives at
or past max_duration. -/
theorem vad_go_maxdur (cfg : VadConfig) :
    ∀ (chunks : List VadChunk) (st : VadState),
      (∀ c ∈ chunks, cfg.silenceThreshold ≤ c.energy) →
      (∃ c ∈ chunks, cfg.maxDuration ≤ c.t) →
      (vad_go cfg chunks st).reason = .maxDur := by
  intro chunks
  induction chunks with
  | nil =>
    intro st _ hex
    simp at hex
  | cons c rest ih =>
    intro st hall hex
    simp only [vad_go]
    by_cases h1 : cfg.maxDuration ≤ c.t
    · simp [if_pos h1, vad_finish]
    · simp only [if_neg h1]
      have h2 : cfg.silenceThreshold ≤ c.energy := hall c (List.mem_cons_self c rest)
      simp only [if_pos h2]
      refine ih _ (fun c' hc' => hall c' (List.mem_cons_of_mem _ hc')) ?_
      obtain ⟨c', hc', hct⟩ := hex
      rcases List.mem_cons.mp hc' with rfl | h
      · exact absurd hct h1
      · exact ⟨c', h, hct⟩

/-- Claim C6 counterexample: with speech_chunks_required = 3, the stream
high, low, high, high, low (threshold 10) stops via silence — yet no 3
consecutive above-threshold chunks ever occurred: speech_chunks is
cumulative (vad.py 64-65 never resets it on a below-threshold chunk),
refuting the claim's "required count of consecutive above-threshold
chunks". -/
theorem vad_silence_without_consecutive_speech :
    (record_until_silence ⟨10, 0, 0, 100, 3⟩
      [⟨1, 50, []⟩, ⟨2, 0, []⟩, ⟨3, 50, []⟩, ⟨4, 50, []⟩, ⟨5, 0, []⟩]).reason = .silence
    ∧ has_consecutive_above 10 3
        (record_until_silence ⟨10, 0, 0, 100, 3⟩
          [⟨1, 50, []⟩, ⟨2, 0, []⟩, ⟨3, 50, []⟩, ⟨4, 50, []⟩, ⟨5, 0, []⟩]).chunks
        = false := by
  constructor <;> decide

/-- Claim C6 (amended): record_until_silence returns a consumed stream
prefix together with the concatenation of those chunks' payloads; it
stops via silence only when speech has started — the required count of
above-threshold chunks reached CUMULATIVELY, since speech_chunks is
never reset — the recording ends in a contiguous below-threshold run
spanning at least silence_duration, and elapsed time at the stop chunk
is at least min_duration (so capture never ends via silence before
min_duration); and under continuous speech it stops unconditionally via
the max_duration safety net once a chunk arrives at or past
max_duration. -/
theorem record_until_silence_spec (cfg : VadConfig) (chunks : List VadChunk) :
    (∃ k, (record_until_silence cfg chunks).chunks = chunks.take k)
    ∧ (record_until_silence cfg chunks).pcm
        = (((record_until_silence cfg chunks).chunks).map VadChunk.data).flatten
    ∧ ((record_until_silence cfg chunks).reason = .silence →
        (record_until_silence cfg chunks).speechStarted = true
        ∧ cfg.speechChunksRequired
            ≤ count_above cfg (record_until_silence cfg chunks).chunks
        ∧ ∃ s last,
            (record_until_silence cfg chunks).silenceStart = some s
            ∧ (record_until_silence cfg chunks).chunks.getLast? = some last
            ∧ cfg.minDuration ≤ last.t
            ∧ cfg.silenceDuration ≤ last.t - s
            ∧ SilenceRun cfg (record_until_silence cfg chunks).chunks s)
    ∧ ((∀ c ∈ chunks, cfg.silenceThreshold ≤ c.energy) →
        (∃ c ∈ chunks, cfg.maxDuration ≤ c.t) →
        (record_until_silence cfg chunks).reason = .maxDur) := by
  have hinv0 : VadInv cfg ⟨[], none, 0, decide (cfg.speechChunksRequired ≤ 0)⟩ := by
    refine ⟨rfl, ?_, ?_⟩
    · simp only [decide_eq_true_eq]
      show cfg.speechChunksRequired ≤ 0 ↔ _
      omega
    · intro s hs; simp at hs
  refine ⟨?_, vad_go_pcm cfg chunks _, ?_, ?_⟩
  · simpa using vad_go_consumed cfg chunks _
  · exact vad_go_silence_spec cfg chunks _ hinv0
  · exact vad_go_maxdur cfg chunks _

/-- Claim C6 witness: the silence-stop clause of the amended theorem,
instantiated at the counterexample stream, where the cumulative count
is 3 and the stop chunk arrives at elapsed time 5. -/
theorem record_until_silence_spec_witness :
    (record_until_silence ⟨10, 0, 0, 100, 3⟩
        [⟨1, 50, []⟩, ⟨2, 0, []⟩, ⟨3, 50, []⟩, ⟨4, 50, []⟩, ⟨5, 0, []⟩]).speechStarted = true
    ∧ 3 ≤ count_above ⟨10, 0, 0, 100, 3⟩
        (record_until_silence ⟨10, 0, 0, 100, 3⟩
          [⟨1, 50, []⟩, ⟨2, 0, []⟩, ⟨3, 50, []⟩, ⟨4, 50, []⟩, ⟨5, 0, []⟩]).chunks := by
  have h := (record_until_silence_spec ⟨10, 0, 0, 100, 3⟩
    [⟨1, 50, []⟩, ⟨2, 0, []⟩, ⟨3, 50, []⟩, ⟨4, 50, []⟩, ⟨5, 0, []⟩]).2.2.1 (by decide)
  exact ⟨h.1, h.2.1⟩

/-- route_fallback always publishes path llm_fallback. -/
theorem route_fallback_pub (rs : RouterState) (ls : LLMState) (orc : LLMOracle)
    (text : String) (now : Nat) (calls : List LLMCallInfo) :
    (route_fallback rs ls orc text now calls).rs.lastRouteInfo
      = some ⟨"llm_fallback", none, none⟩ := rfl

/-- route_recovery publishes path recovery or llm_fallback. -/
theorem route_recovery_pub (rs : RouterState) (ls : LLMState) (orc : LLMOracle)
    (text : String) (now : Nat) (calls : List LLMCallInfo) :
    ∃ info, (route_recovery rs ls orc text now calls).rs.lastRouteInfo = some info
      ∧ (info.path = "recovery" ∨ info.path = "llm_fallback") := by
  unfold route_recovery
  split
  · split
    · exact ⟨_, route_fallback_pub .., Or.inr rfl⟩
    · exact ⟨_, route_fallback_pub .., Or.inr rfl⟩
    · split
      · exact ⟨_, route_fallback_pub .., Or.inr rfl⟩
      · split
        · exact ⟨_, rfl, Or.inl rfl⟩
        · exact ⟨_, route_fallback_pub .., Or.inr rfl⟩
  · exact ⟨_, route_fallback_pub .., Or.inr rfl⟩

/-- route_regex publishes path regex, recovery or llm_fallback. -/
theorem route_regex_pub (rs : RouterState) (ls : LLMState) (orc : LLMOracle)
    (text : String) (now : Nat) (calls : List LLMCallInfo) :
    ∃ info, (route_regex rs ls orc text now calls).rs.lastRouteInfo = some info
      ∧ (info.path = "regex" ∨ info.path = "recovery" ∨ info.path = "llm_fallback") := by
  unfold route_regex
  split
  · exact ⟨_, rfl, Or.inl rfl⟩
  · obtain ⟨info, h1, h2⟩ := route_recovery_pub rs ls orc text now calls
    exact ⟨info, h1, Or.inr h2⟩

/-- Every route publishes a route info whose path is one of the four
dispatch paths. -/
theorem route_pub (rs : RouterState) (ls : LLMState) (orc : LLMOracle)
    (text : String) (now : Nat) :
    ∃ info, (route rs ls orc text now).rs.lastRouteInfo = some info
      ∧ (info.path = "llm_parse" ∨ info.path = "regex" ∨ info.path = "recovery"
          ∨ info.path = "llm_fallback") := by
  unfold route
  split
  · obtain ⟨info, h1, h2⟩ := route_regex_pub ..
    exact ⟨info, h1, Or.inr h2⟩
  · split
    · split
      · obtain ⟨info, h1, h2⟩ := route_regex_pub ..
        exact ⟨info, h1, Or.inr h2⟩
      · split
        · exact ⟨_, rfl, Or.inl rfl⟩
        · split
          · obtain ⟨info, h1, h2⟩ := route_regex_pub ..
            exact ⟨info, h1, Or.inr h2⟩
          · exact ⟨_, rfl, Or.inl rfl⟩
    · exact ⟨_, rfl, Or.inl rfl⟩
    · exact ⟨_, rfl, Or.inl rfl⟩
    · obtain ⟨info, h1, h2⟩ := route_regex_pub ..
      exact ⟨info, h1, Or.inr h2⟩

/-- Claim C2: after every IntentRouter.route call the router publishes
last_route_info = { path, matched_feature, feature_action } with path
the dispatch path taken, together with last_llm_calls, and the
orchestrator's finalization block copies these onto the current
Exchange's routing_path, matched_feature, feature_action and llm_calls
fields (the router publication is modelled from spec §4.7; the
orchestrator copy is voice_pipeline.py 116-134). -/
theorem route_publishes_metadata (rs : RouterState) (ls : LLMState) (orc : LLMOracle)
    (text : String) (now : Nat) :
    ∃ info, (route rs ls orc text now).rs.lastRouteInfo = some info
      ∧ (info.path = "llm_parse" ∨ info.path = "regex" ∨ info.path = "recovery"
          ∨ info.path = "llm_fallback")
      ∧ ∀ ex, harvest_exchange ex (route rs ls orc text now).rs
          = { routingPath := some info.path
              matchedFeature := info.matchedFeature
              featureAction := info.featureAction
              llmCalls := ex.llmCalls ++ (route rs ls orc text now).rs.lastLlmCalls } := by
  obtain ⟨info, h1, h2⟩ := route_pub rs ls orc text now
  refine ⟨info, h1, h2, ?_⟩
  intro ex
  unfold harvest_exchange
  rw [h1]

/-- A route that ends in the regex stage (or beyond) never publishes the
llm_parse path. -/
theorem route_regex_not_llm_parse (rs : RouterState) (ls : LLMState) (orc : LLMOracle)
    (text : String) (now : Nat) (calls : List LLMCallInfo) (info : RouteInfo)
    (h1 : (route_regex rs ls orc text now calls).rs.lastRouteInfo = some info) :
    ¬ info.path = "llm_parse" := by
  obtain ⟨info', hi', hp'⟩ := route_regex_pub rs ls orc text now calls
  rw [h1] at hi'
  obtain rfl := Option.some.inj hi'
  rcases hp' with h | h | h <;> (rw [h]; decide)

/-- Claim C1: when parse_intent yields no result and some feature matches
the text, route returns the first matching feature's handle(text)
result (without raising: the embedding is total on this path) and
commits (text, result) to the LLM history through the public
record_exchange API; and on every route published as llm_parse the same
record_exchange API commits (text, response) to the history. -/
theorem route_records_via_record_exchange (rs : RouterState) (ls : LLMState)
    (orc : LLMOracle) (text : String) (now : Nat) :
    ((parse_intent ls now orc.parseApi).1 = none →
      ∀ f, rs.features.find? (fun g => g.matchesText text) = some f →
        (route rs ls orc text now).resp = f.handle text
        ∧ (route rs ls orc text now).ls
            = record_exchange (parse_intent ls now orc.parseApi).2 text (f.handle text) now)
    ∧ (∀ info, (route rs ls orc text now).rs.lastRouteInfo = some info →
        info.path = "llm_parse" →
        (route rs ls orc text now).ls
          = record_exchange (parse_intent ls now orc.parseApi).2 text
              (route rs ls orc text now).resp now) := by
  constructor
  · intro hnone f hf
    unfold route
    rw [hnone]
    unfold route_regex
    rw [hf]
    exact ⟨rfl, rfl⟩
  · intro info
    unfold route
    split
    · intro h1 h2
      exact absurd h2 (route_regex_not_llm_parse _ _ _ _ _ _ info h1)
    · split
      · split
        · intro h1 h2
          exact absurd h2 (route_regex_not_llm_parse _ _ _ _ _ _ info h1)
        · split
          · intro _ _; rfl
          · split
            · intro h1 h2
              exact absurd h2 (route_regex_not_llm_parse _ _ _ _ _ _ info h1)
            · intro _ _; rfl
      · intro _ _; rfl
      · intro _ _; rfl
      · intro h1 h2
        exact absurd h2 (route_regex_not_llm_parse _ _ _ _ _ _ info h1)

/-- Claim C1 witness: with a parse_intent miss, routing "milk" through the
sample feature returns its handle result "ok" and appends ("milk",
"ok") to the history via record_exchange; and with a conversation
parse, the llm_parse route's history is committed the same way. -/
theorem route_records_via_record_exchange_witness :
    ((route sample_router sample_llm sample_oracle_none "milk" 7).resp = "ok"
      ∧ (route sample_router sample_llm sample_oracle_none "milk" 7).ls.history
          = [⟨"milk", "ok", 7⟩])
    ∧ (route sample_router sample_llm sample_oracle_conv "milk" 7).ls.history
        = [⟨"milk", "hi", 7⟩] := by
  have h1 := (route_records_via_record_exchange sample_router sample_llm
    sample_oracle_none "milk" 7).1 rfl sample_feature rfl
  have h2 := (route_records_via_record_exchange sample_router sample_llm
    sample_oracle_conv "milk" 7).2 ⟨"llm_parse", none, none⟩ rfl rfl
  refine ⟨⟨h1.1, ?_⟩, ?_⟩
  · rw [h1.2]; rfl
  · rw [h2]; rfl

/-- Claim C7: the router's effective expects_follow_up is true iff the
last-matched feature's own expects_follow_up is currently true, or no
matched feature asserts follow-up and the last LLM-signalled value is
true; and a regex-routed exchange yields follow-up exactly when the
matched feature itself asserts it (the route clears the LLM flag and
stores the matched feature, router.py 156-158). -/
theorem expects_follow_up_resolution (rs : RouterState) (ls : LLMState)
    (orc : LLMOracle) (text : String) (now : Nat) :
    (router_expects_follow_up rs = true ↔
      ((∃ f, rs.lastFeature = some f ∧ f.expectsFollowUp = true)
        ∨ ((∀ f, rs.lastFeature = some f → f.expectsFollowUp = false)
            ∧ rs.llmExpectsFollowUp = true)))
    ∧ ((parse_intent ls now orc.parseApi).1 = none →
        ∀ f, rs.features.find? (fun g => g.matchesText text) = some f →
          router_expects_follow_up (route rs ls orc text now).rs = f.expectsFollowUp) := by
  constructor
  · unfold router_expects_follow_up
    cases hlf : rs.lastFeature with
    | none => simp [hlf]
    | some f =>
      cases hfu : f.expectsFollowUp with
      | false => simp [hlf, hfu]
      | true => simp [hlf, hfu]
  · intro hnone f hf
    unfold route
    rw [hnone]
    unfold route_regex
    rw [hf]
    unfold router_expects_follow_up
    simp

/-- Claim C7 witness: a concrete regex route through the sample feature
yields the feature's own (false) follow-up flag. -/
theorem expects_follow_up_resolution_witness :
    router_expects_follow_up
      (route sample_router sample_llm sample_oracle_none "milk" 7).rs = false := by
  exact (expects_follow_up_resolution sample_router sample_llm sample_oracle_none
    "milk" 7).2 rfl sample_feature rfl

/-- A dict lookup misses when no entry has the key. -/
theorem dict_get_none_of_no_key (m : List (String × Feature)) (k : String)
    (h : ∀ p ∈ m, p.1 ≠ k) : dict_get m k = none := by
  unfold dict_get
  rw [List.find?_eq_none.mpr]
  · rfl
  · intro p hp
    simp only [beq_iff_eq]
    exact h p hp

/-- The empty string is a Python substring of every string. -/
theorem py_in_empty (s : String) : py_in "" s = true := by
  unfold py_in
  show chars_contain [] s.data = true
  cases s.data with
  | nil => rfl
  | cons c cs => rfl

/-- Claim C10: _find_feature on an empty (or missing, read as "") feature
name returns none without reaching the substring fallback, so an
action-type parse_intent result that omits the feature field makes
route fall through to the regex stage; and the guard is load-bearing —
with the guard removed, the substring rule would return the FIRST
registered feature for the empty string (the empty string is a
substring of every key). -/
theorem find_feature_empty_name (fm : List (String × Feature)) (rs : RouterState)
    (ls : LLMState) (orc : LLMOracle) (text : String) (now : Nat)
    (e : String × Feature) (rest : List (String × Feature)) :
    find_feature fm "" = none
    ∧ (∀ pi : ParsedIntent, orc.parseApi = .ok (some pi) → pi.type = .action →
        pi.feature = "" →
        route rs ls orc text now
          = route_regex rs (parse_intent ls now orc.parseApi).2 orc text now
              [orc.parseCall])
    ∧ ((∀ p ∈ e :: rest, p.1 ≠ "") →
        find_feature_unguarded (e :: rest) "" = some e.2) := by
  refine ⟨?_, ?_, ?_⟩
  · unfold find_feature
    rw [if_pos rfl]
  · intro pi hapi htype hfeat
    unfold route
    have hp1 : (parse_intent ls now orc.parseApi).1 = some pi := by
      rw [hapi]; rfl
    have hff : find_feature rs.featureMap "" = none := by
      unfold find_feature
      rw [if_pos rfl]
    simp only [hp1, htype, hfeat, hff]
  · intro hk
    unfold find_feature_unguarded
    have hkey : py_strip (py_lower "") = "" := by decide
    have hr1 : py_replace "" "_" " " = "" := by decide
    have hr2 : py_replace "" " " "_" = "" := by decide
    rw [hkey, hr1, hr2]
    have h1 : dict_get (e :: rest) "" = none := dict_get_none_of_no_key _ _ hk
    rw [h1]
    rw [List.find?_cons_of_pos]
    · rfl
    · simp [py_in_empty]

/-- Claim C10 witness: the guard at a concrete map, the concrete
fall-through of an action intent with no feature, and the unguarded
variant dispatching to the first registered feature for "". -/
theorem find_feature_empty_name_witness :
    find_feature [("grocery", sample_feature)] "" = none
    ∧ route sample_router sample_llm sample_oracle_action "milk" 7
        = route_regex sample_router
            (parse_intent sample_llm 7 sample_oracle_action.parseApi).2
            sample_oracle_action "milk" 7 [sample_call]
    ∧ find_feature_unguarded [("grocery", sample_feature)] "" = some sample_feature := by
  have h := find_feature_empty_name [("grocery", sample_feature)] sample_router
    sample_llm sample_oracle_action "milk" 7 ("grocery", sample_feature) []
  refine ⟨h.1, ?_, ?_⟩
  · exact h.2.1 sample_pi_action_nofeat rfl rfl rfl
  · exact h.2.2 (by
      intro p hp
      rcases List.mem_singleton.mp hp with rfl
      decide)

/-- Pruning preserves referential integrity. -/
theorem maybe_prune_integrity (maxSizeBytes size : Nat) (db : TelemetryDB)
    (hint : DBIntegrity db) : DBIntegrity (maybe_prune maxSizeBytes size db) := by
  unfold maybe_prune
  split
  · exact hint
  · split
    · exact hint
    · obtain ⟨hex, hcall⟩ := hint
      constructor
      · intro e he
        rw [List.mem_filter] at he
        obtain ⟨he1, he2⟩ := he
        simp only [decide_eq_true_eq] at he2
        obtain ⟨s0, hs0, hs0id⟩ := hex e he1
        refine ⟨s0, ?_, hs0id⟩
        rw [List.mem_filter]
        refine ⟨hs0, ?_⟩
        simp only [decide_eq_true_eq]
        rw [hs0id]
        exact he2
      · intro c hc
        rw [List.mem_filter] at hc
        obtain ⟨hc1, hc2⟩ := hc
        simp only [decide_eq_true_eq] at hc2
        obtain ⟨e0, he0, he0id⟩ := hcall c hc1
        refine ⟨e0, ?_, he0id⟩
        rw [List.mem_filter]
        refine ⟨he0, ?_⟩
        simp only [decide_eq_true_eq]
        intro hmem
        apply hc2
        rw [← he0id]
        exact List.mem_map.mpr
          ⟨e0, List.mem_filter.mpr ⟨he0, by simp [hmem]⟩, rfl⟩

/-- The session comparator is transitive and total. -/
theorem session_le_facts :
    (∀ a b c : SessionRow,
      (decide (a.startedAt ≤ b.startedAt)) = true →
      (decide (b.startedAt ≤ c.startedAt)) = true →
      (decide (a.startedAt ≤ c.startedAt)) = true)
    ∧ ∀ a b : SessionRow,
        ((decide (a.startedAt ≤ b.startedAt)) || (decide (b.startedAt ≤ a.startedAt)))
          = true := by
  constructor
  · intro a b c hab hbc
    simp only [decide_eq_true_eq] at hab hbc ⊢
    omega
  · intro a b
    simp only [Bool.or_eq_true, decide_eq_true_eq]
    omega

/-- Every surviving session row sits in the dropped (newer) part of the
sorted session list. -/
theorem surviving_in_drop (db : TelemetryDB) (sRow : SessionRow)
    (h1 : sRow ∈ db.sessions) (h2 : ¬ sRow.id ∈ prune_ids db) :
    sRow ∈ (sorted_sessions db).drop (num_to_delete db) := by
  have hmem : sRow ∈ sorted_sessions db :=
    (List.mergeSort_perm db.sessions _).symm.mem_iff.mp h1
  rw [← List.take_append_drop (num_to_delete db) (sorted_sessions db),
    List.mem_append] at hmem
  rcases hmem with h | h
  · exact absurd (List.mem_map.mpr ⟨sRow, h, rfl⟩) h2
  · exact h

/-- Claim C8: save_session inserts the session with its exchanges and
llm_calls and then compares the (oracle) file size with max_size_bytes;
when not exceeded the database is unchanged; when exceeded, pruning —
one atomic state transition, matching the single transaction of
store.py 213-227 — deletes the oldest max(1, total // 10) sessions by
started_at together with all their exchanges and those exchanges'
llm_calls, and afterwards referential integrity holds: no remaining
exchange references a deleted session and no remaining llm_calls row
references a deleted exchange. -/
theorem save_session_prunes_with_integrity (maxSizeBytes size : Nat) (db : TelemetryDB)
    (hint : DBIntegrity db) :
    (∀ s exs calls sizeAfter, save_session maxSizeBytes db s exs calls sizeAfter
        = maybe_prune maxSizeBytes sizeAfter
            ⟨db.sessions ++ [s], db.exchanges ++ exs, db.llmCalls ++ calls⟩)
    ∧ (size ≤ maxSizeBytes → maybe_prune maxSizeBytes size db = db)
    ∧ DBIntegrity (maybe_prune maxSizeBytes size db)
    ∧ (¬ size ≤ maxSizeBytes → ¬ db.sessions.length = 0 →
        (∀ e ∈ (maybe_prune maxSizeBytes size db).exchanges,
            ¬ e.sessionId ∈ prune_ids db)
        ∧ (∀ sRow ∈ (maybe_prune maxSizeBytes size db).sessions,
            ∀ d ∈ (sorted_sessions db).take (num_to_delete db),
              d.startedAt ≤ sRow.startedAt)
        ∧ ((db.sessions.map (fun r => r.id)).Nodup →
            (maybe_prune maxSizeBytes size db).sessions.length + num_to_delete db
              = db.sessions.length)) := by
  refine ⟨fun s exs calls sizeAfter => rfl, ?_, maybe_prune_integrity _ _ _ hint, ?_⟩
  · intro h
    unfold maybe_prune
    rw [if_pos h]
  · intro hgt hne
    have hsessions : (maybe_prune maxSizeBytes size db).sessions
        = db.sessions.filter (fun s => decide (¬ s.id ∈ prune_ids db)) := by
      unfold maybe_prune
      rw [if_neg hgt, if_neg hne]
    have hexchanges : (maybe_prune maxSizeBytes size db).exchanges
        = db.exchanges.filter (fun e => decide (¬ e.sessionId ∈ prune_ids db)) := by
      unfold maybe_prune
      rw [if_neg hgt, if_neg hne]
    refine ⟨?_, ?_, ?_⟩
    · intro e he
      rw [hexchanges, List.mem_filter] at he
      simpa using he.2
    · intro sRow hs d hd
      rw [hsessions, List.mem_filter] at hs
      obtain ⟨hs1, hs2⟩ := hs
      simp only [decide_eq_true_eq] at hs2
      have hdrop := surviving_in_drop db sRow hs1 hs2
      have hpair : List.Pairwise
          (fun a b : SessionRow => decide (a.startedAt ≤ b.startedAt) = true)
          (sorted_sessions db) :=
        List.sorted_mergeSort session_le_facts.1 session_le_facts.2 db.sessions
      rw [← List.take_append_drop (num_to_delete db) (sorted_sessions db)] at hpair
      have h3 := (List.pairwise_append.mp hpair).2.2 d hd sRow hdrop
      simpa using h3
    · intro hnd
      have hk : num_to_delete db ≤ db.sessions.length := by
        unfold num_to_delete
        have : 1 ≤ db.sessions.length := Nat.one_le_iff_ne_zero.mpr hne
        exact Nat.max_le.mpr ⟨this, Nat.div_le_self _ _⟩
      have hperm : (sorted_sessions db).Perm db.sessions :=
        List.mergeSort_perm db.sessions _
      have hlen : (db.sessions.filter
          (fun s => decide (¬ s.id ∈ prune_ids db))).length
          = ((sorted_sessions db).filter
              (fun s => decide (¬ s.id ∈ prune_ids db))).length :=
        (List.Perm.filter _ hperm.symm).length_eq
      have hndsorted : ((sorted_sessions db).map (fun r => r.id)).Nodup :=
        (hperm.symm.map (fun r => r.id)).nodup hnd
      have hsplit : sorted_sessions db
          = (sorted_sessions db).take (num_to_delete db)
            ++ (sorted_sessions db).drop (num_to_delete db) :=
        (List.take_append_drop _ _).symm
      have hfiltertake : ((sorted_sessions db).take (num_to_delete db)).filter
          (fun s => decide (¬ s.id ∈ prune_ids db)) = [] := by
        rw [List.filter_eq_nil_iff]
        intro a ha
        simp only [decide_eq_true_eq, Decidable.not_not]
        exact List.mem_map.mpr ⟨a, ha, rfl⟩
      have hfilterdrop : ((sorted_sessions db).drop (num_to_delete db)).filter
          (fun s => decide (¬ s.id ∈ prune_ids db))
          = (sorted_sessions db).drop (num_to_delete db) := by
        rw [List.filter_eq_self]
        intro a ha
        simp only [decide_eq_true_eq]
        intro hida
        obtain ⟨x, hx, hxid⟩ := List.mem_map.mp hida
        rw [hsplit, List.map_append, List.nodup_append] at hndsorted
        exact (List.disjoint_left.mp hndsorted.2.2
          (List.mem_map.mpr ⟨x, hx, rfl⟩))
          (by
            rw [hxid]
            exact List.mem_map.mpr ⟨a, ha, rfl⟩)
      rw [hsessions, hlen]
      calc ((sorted_sessions db).filter
            (fun s => decide (¬ s.id ∈ prune_ids db))).length + num_to_delete db
          = (((sorted_sessions db).take (num_to_delete db)
              ++ (sorted_sessions db).drop (num_to_delete db)).filter
                (fun s => decide (¬ s.id ∈ prune_ids db))).length + num_to_delete db := by
            rw [← hsplit]
        _ = ((sorted_sessions db).drop (num_to_delete db)).length + num_to_delete db := by
            rw [List.filter_append, hfiltertake, hfilterdrop, List.nil_append]
        _ = db.sessions.length - num_to_delete db + num_to_delete db := by
            rw [List.length_drop, hperm.length_eq]
        _ = db.sessions.length := Nat.sub_add_cancel hk

/-- Claim C8 witness: a concrete over-limit database of two sessions; the
older one ("s2") is pruned, integrity holds, and one session remains. -/
theorem save_session_prunes_with_integrity_witness :
    DBIntegrity (maybe_prune 10 100 ⟨[⟨"s1", 5⟩, ⟨"s2", 1⟩], [⟨"e1", "s1"⟩], [⟨"e1"⟩]⟩)
    ∧ (maybe_prune 10 100
        ⟨[⟨"s1", 5⟩, ⟨"s2", 1⟩], [⟨"e1", "s1"⟩], [⟨"e1"⟩]⟩).sessions.length
        + num_to_delete ⟨[⟨"s1", 5⟩, ⟨"s2", 1⟩], [⟨"e1", "s1"⟩], [⟨"e1"⟩]⟩ = 2 := by
  have h := save_session_prunes_with_integrity 10 100
    ⟨[⟨"s1", 5⟩, ⟨"s2", 1⟩], [⟨"e1", "s1"⟩], [⟨"e1"⟩]⟩
    (by constructor <;> decide)
  exact ⟨h.2.2.1, (h.2.2.2 (by decide) (by decide)).2.2 (by decide)⟩
